import Mathlib

/-!
Shallow embedding of `src/meed.js` (the Meed Medium-feed client) and proofs
about it.  JavaScript dynamic values are modelled by `JSValue`, decoded JSON
payloads by `JSON`, and the spec's error taxonomy by `MeedError`:
`validationError` stands for the explicit argument/configuration throws and
the explicit `Error("Invalid topics JSON")`, `upstreamError` for the explicit
throws in `check`, `parseError` for JSON syntax failures, and `typeError` for
implicit JavaScript runtime crashes (property access on `undefined`/`null`).
Asynchronous results are modelled as plain `Except` values; the transport is
a function `String → Response`, and each public operation also returns the
list of URLs it passed to the transport.
-/

/-- A JavaScript runtime value, as far as the constructor and the public
methods inspect their arguments: primitives, plus opaque functions and
non-function objects identified by a numeric id. -/
inductive JSValue where
  | undefined
  | null
  | bool (b : Bool)
  | num (n : Int)
  | str (s : String)
  | fn (id : Nat)
  | obj (id : Nat)
deriving DecidableEq

/-- JavaScript truthiness of a `JSValue` (NaN is not modelled). -/
def JSValue.truthy : JSValue → Bool
  | .undefined => false
  | .null => false
  | .bool b => b
  | .num n => n != 0
  | .str s => s != ""
  | .fn _ => true
  | .obj _ => true

/-- Models `typeof v === "string"`. -/
def JSValue.isString : JSValue → Bool
  | .str _ => true
  | _ => false

/-- Models `typeof v === "function"`. -/
def JSValue.isFunction : JSValue → Bool
  | .fn _ => true
  | _ => false

/-- String coercion of a `JSValue` as performed by a template literal. -/
def JSValue.toStr : JSValue → String
  | .undefined => "undefined"
  | .null => "null"
  | .bool b => cond b "true" "false"
  | .num n => toString n
  | .str s => s
  | .fn _ => "function"
  | .obj _ => "[object Object]"

/-- Models `typeof v === "string" && v.length > 0`, the argument check used
by `user`, `publication`, `topic` and `tag`. -/
def jsNonEmptyString : JSValue → Bool
  | .str s => decide (0 < s.length)
  | _ => false

/-- A decoded JSON value (the result of `JSON.parse`).  Numbers are modelled
as integers; none of the payloads handled by the program carry fractional
numbers. -/
inductive JSON where
  | null
  | bool (b : Bool)
  | num (n : Int)
  | str (s : String)
  | arr (elems : List JSON)
  | obj (fields : List (String × JSON))

/-- The spec's error taxonomy for this program (see module docstring). -/
inductive MeedError where
  | validationError (msg : String)
  | upstreamError (msg : String)
  | parseError (msg : String)
  | typeError (msg : String)
deriving DecidableEq

/-- Property access `v[k]` on a defined, non-null JavaScript value:
`none` models `undefined`.  Non-objects have none of the keys this program
reads, so they yield `undefined`. -/
def jsGet : JSON → String → Option JSON
  | .obj fs, k => (fs.find? (fun p => p.1 == k)).map (fun p => p.2)
  | _, _ => none

/-- Property access `v.k` where `v` itself may be `undefined` (`none`) or
`null`: those two accesses crash with a runtime `TypeError`, as in
JavaScript. -/
def accessOpt (v : Option JSON) (k : String) : Except MeedError (Option JSON) :=
  match v with
  | none =>
    Except.error (MeedError.typeError ("Cannot read properties of undefined (reading " ++ k ++ ")"))
  | some JSON.null =>
    Except.error (MeedError.typeError ("Cannot read properties of null (reading " ++ k ++ ")"))
  | some w => Except.ok (jsGet w k)

/-- JavaScript truthiness of a possibly-`undefined` JSON value. -/
def truthy : Option JSON → Bool
  | none => false
  | some JSON.null => false
  | some (JSON.bool b) => b
  | some (JSON.num n) => n != 0
  | some (JSON.str s) => s != ""
  | some (JSON.arr _) => true
  | some (JSON.obj _) => true

/-- One-level string coercion of a JSON value used inside a JS array's
`toString` (`null` becomes the empty string; nested arrays and objects are
modelled only one level deep — the program never coerces those). -/
def jsonLeafStr : JSON → String
  | JSON.null => ""
  | JSON.bool b => cond b "true" "false"
  | JSON.num n => toString n
  | JSON.str s => s
  | JSON.arr _ => ""
  | JSON.obj _ => "[object Object]"

/-- Template-literal string coercion of a possibly-`undefined` JSON value. -/
def jsonToStr : Option JSON → String
  | none => "undefined"
  | some JSON.null => "null"
  | some (JSON.bool b) => cond b "true" "false"
  | some (JSON.num n) => toString n
  | some (JSON.str s) => s
  | some (JSON.arr xs) => String.intercalate "," (xs.map jsonLeafStr)
  | some (JSON.obj _) => "[object Object]"

/-- `Object.entries` on a (truthy) JSON value: own enumerable entries in
insertion order (the reordering JavaScript applies to integer-like keys is
not modelled; the topics map is keyed by non-numeric ids). -/
def jsEntries : JSON → List (String × JSON)
  | JSON.obj fs => fs
  | JSON.arr xs => xs.enum.map (fun p => (toString p.1, p.2))
  | JSON.str s => s.data.enum.map (fun p => (toString p.1, JSON.str (String.mk [p.2])))
  | _ => []

/-- Record a key/value pair in an object under construction the way
`JSON.parse` does: a duplicate key keeps its first position but takes the
last value. -/
def setKey : List (String × JSON) → String → JSON → List (String × JSON)
  | [], k, v => [(k, v)]
  | (k', v') :: rest, k, v =>
    if k' == k then (k', v) :: rest else (k', v') :: setKey rest k v

/-- JSON whitespace. -/
def isJsonWs (c : Char) : Bool :=
  c == ' ' || c == '\n' || c == '\r' || c == '\t'

/-- Drop leading JSON whitespace. -/
def skipWs : List Char → List Char
  | [] => []
  | c :: cs => if isJsonWs c then skipWs cs else c :: cs

/-- Value of a hexadecimal digit. -/
def hexVal (c : Char) : Option Nat :=
  if c.isDigit then some (c.toNat - 48)
  else if 'a' ≤ c && c ≤ 'f' then some (c.toNat - 87)
  else if 'A' ≤ c && c ≤ 'F' then some (c.toNat - 55)
  else none

/-- Simple JSON escape characters. -/
def escChar : Char → Option Char
  | '"' => some '"'
  | '\\' => some '\\'
  | '/' => some '/'
  | 'b' => some (Char.ofNat 8)
  | 'f' => some (Char.ofNat 12)
  | 'n' => some '\n'
  | 'r' => some '\r'
  | 't' => some '\t'
  | _ => none

/-- Parse the characters of a JSON string literal after the opening quote;
returns the decoded characters and the remaining input.  The fuel argument
only bounds recursion depth (it is always instantiated to more than the
input length). -/
def parseStrChars : Nat → List Char → Option (List Char × List Char)
  | 0, _ => none
  | _, [] => none
  | fuel + 1, c :: rest =>
    if c == '"' then some ([], rest)
    else if c == '\\' then
      match rest with
      | [] => none
      | e :: r2 =>
        if e == 'u' then
          match r2 with
          | a :: b :: c2 :: d :: r3 =>
            match hexVal a, hexVal b, hexVal c2, hexVal d with
            | some ha, some hb, some hc, some hd =>
              match parseStrChars fuel r3 with
              | some (tailChars, r4) =>
                some (Char.ofNat (((ha * 16 + hb) * 16 + hc) * 16 + hd) :: tailChars, r4)
              | none => none
            | _, _, _, _ => none
          | _ => none
        else
          match escChar e with
          | some ec =>
            match parseStrChars fuel r2 with
            | some (tailChars, r3) => some (ec :: tailChars, r3)
            | none => none
          | none => none
    else
      match parseStrChars fuel rest with
      | some (tailChars, r2) => some (c :: tailChars, r2)
      | none => none

/-- Decimal digits to a natural number. -/
def digitsToNat (ds : List Char) : Nat :=
  ds.foldl (fun a c => a * 10 + (c.toNat - 48)) 0

/-- Parse a JSON number (integers only, see `JSON`). -/
def parseNumber (cs : List Char) : Option (JSON × List Char) :=
  match cs with
  | [] => none
  | c :: rest =>
    if c == '-' then
      let p := rest.span Char.isDigit
      if p.1.isEmpty then none else some (JSON.num (-(digitsToNat p.1 : Int)), p.2)
    else if c.isDigit then
      let p := cs.span Char.isDigit
      some (JSON.num (digitsToNat p.1 : Int), p.2)
    else none

/-- Parsing mode: a single value, the members of an object, or the elements
of an array (with the fields/elements accumulated so far). -/
inductive PMode where
  | value
  | members (acc : List (String × JSON))
  | elems (acc : List JSON)

/-- Recursive-descent JSON parser, structural on its fuel so that concrete
inputs evaluate definitionally. -/
def parseStep : Nat → PMode → List Char → Option (JSON × List Char)
  | 0, _, _ => none
  | fuel + 1, PMode.value, cs =>
    match skipWs cs with
    | [] => none
    | c :: rest =>
      if c == '\x7b' then
        match skipWs rest with
        | '\x7d' :: r => some (JSON.obj [], r)
        | other => parseStep fuel (PMode.members []) other
      else if c == '[' then
        match skipWs rest with
        | ']' :: r => some (JSON.arr [], r)
        | other => parseStep fuel (PMode.elems []) other
      else if c == '"' then
        match parseStrChars fuel rest with
        | some (chars, r) => some (JSON.str (String.mk chars), r)
        | none => none
      else if c == 't' then
        match rest with
        | 'r' :: 'u' :: 'e' :: r => some (JSON.bool true, r)
        | _ => none
      else if c == 'f' then
        match rest with
        | 'a' :: 'l' :: 's' :: 'e' :: r => some (JSON.bool false, r)
        | _ => none
      else if c == 'n' then
        match rest with
        | 'u' :: 'l' :: 'l' :: r => some (JSON.null, r)
        | _ => none
      else parseNumber (c :: rest)
  | fuel + 1, PMode.members acc, cs =>
    match skipWs cs with
    | '"' :: rest =>
      match parseStrChars fuel rest with
      | some (keyChars, r1) =>
        match skipWs r1 with
        | ':' :: r2 =>
          match parseStep fuel PMode.value r2 with
          | some (v, r3) =>
            let acc2 := setKey acc (String.mk keyChars) v
            match skipWs r3 with
            | ',' :: r4 => parseStep fuel (PMode.members acc2) r4
            | '\x7d' :: r4 => some (JSON.obj acc2, r4)
            | _ => none
          | none => none
        | _ => none
      | none => none
    | _ => none
  | fuel + 1, PMode.elems acc, cs =>
    match parseStep fuel PMode.value cs with
    | some (v, r1) =>
      match skipWs r1 with
      | ',' :: r2 => parseStep fuel (PMode.elems (acc ++ [v])) r2
      | ']' :: r2 => some (JSON.arr (acc ++ [v]), r2)
      | _ => none
    | none => none

/-- Models `JSON.parse`: the whole input (up to trailing whitespace) must be
one JSON value, otherwise a syntax error is raised. -/
def jsonParse (s : String) : Except MeedError JSON :=
  match parseStep (2 * s.length + 4) PMode.value s.data with
  | some (v, rest) =>
    if (skipWs rest).isEmpty then Except.ok v
    else Except.error (MeedError.parseError "Unexpected token in JSON")
  | none => Except.error (MeedError.parseError "Unexpected token in JSON")

/-- `const BASE = "https://medium.com"`. -/
def BASE : String := "https://medium.com"

/-- `const CDN = "https://cdn-images-1.medium.com"`. -/
def CDN : String := "https://cdn-images-1.medium.com"

/-- Models `String.prototype.toLowerCase` (ASCII range; the content types the
program compares are ASCII). -/
def jsToLower (s : String) : String := String.mk (s.data.map Char.toLower)

/-- Contiguous containment of `needle` in `hay`, as a boolean scan. -/
def listHasInfix : List Char → List Char → Bool
  | [], needle => needle.isEmpty
  | c :: t, needle => needle.isPrefixOf (c :: t) || listHasInfix t needle

/-- Models `haystack.includes(needle)` (substring containment). -/
def jsIncludes (hay needle : String) : Bool := listHasInfix hay.data needle.data

/-- A transport response, per the external-interface contract: a success
indicator, a status code, the `Content-Type` header and the body text. -/
structure Response where
  ok : Bool
  status : Int
  contentType : String
  body : String
deriving DecidableEq

/-- `check(res, type)`: validates a transport response and extracts its body
text, failing with an upstream error on a non-ok status or an unexpected
content type. -/
def check (res : Response) (type : String) : Except MeedError String :=
  if res.ok = false then
    Except.error (MeedError.upstreamError ("Response code not OK: " ++ toString res.status))
  else if jsIncludes (jsToLower res.contentType) type = false then
    Except.error
      (MeedError.upstreamError ("Response type not " ++ type ++ ": " ++ res.contentType))
  else Except.ok res.body

/-- A `new Date(iso)` value, identified by the string it was built from. -/
structure JSDate where
  iso : String
deriving DecidableEq

/-- An item of the feed object produced by the external RSS parsing
capability.  `link` and `isoDate` are the structurally required fields; the
optional fields may be absent (`none` models `undefined`). -/
structure RSSItem where
  isoDate : String
  link : String
  guid : Option String
  title : Option String
  creator : Option String
  contentEncoded : Option String
  description : Option String
  categories : Option (List String)
deriving DecidableEq

/-- The feed object produced by the external RSS parsing capability. -/
structure RSSFeed where
  items : List RSSItem
deriving DecidableEq

/-- A normalized feed item (the FeedItem output schema). -/
structure FeedItem where
  date : JSDate
  link : String
  guid : Option String
  title : Option String
  author : Option String
  content : Option String
  categories : List String
deriving DecidableEq

/-- Models `String.prototype.split` with a one-character separator. -/
def splitChar (sep : Char) : List Char → List (List Char)
  | [] => [[]]
  | c :: cs =>
    match splitChar sep cs with
    | [] => [[]]
    | h :: t => if c == sep then [] :: h :: t else (c :: h) :: t

/-- `s.split(sep)` for a one-character separator, as strings. -/
def jsSplit (s : String) (sep : Char) : List String :=
  (splitChar sep s.data).map String.mk

/-- `formatRSS(json, type)`: normalizes a parsed feed into FeedItem records.
The dynamic field lookup `item[ctag]` becomes a branch on whether the feed
kind selects the encoded-content field. -/
def formatRSS (json : RSSFeed) (type : String) : List FeedItem :=
  let ctagEncoded := ["user", "publication"].contains type
  json.items.map (fun item =>
    { date := ⟨item.isoDate⟩
      link := (jsSplit item.link '?').headD ""
      guid := item.guid
      title := item.title
      author := item.creator
      content := if ctagEncoded then item.contentEncoded else item.description
      categories := item.categories.getD [] })

/-- A normalized topic (the Topic output schema).  `slug`, `name` and
`description` are copied JSON fields (possibly `undefined`); `link` and
`image` are derived URL strings. -/
structure TopicRec where
  slug : Option JSON
  link : String
  name : Option JSON
  image : String
  description : Option JSON

/-- `parseTopics(json, offset = 16)`: drops the first `offset` characters of
the raw body and parses the remainder as JSON. -/
def parseTopics (json : String) (offset : Nat := 16) : Except MeedError JSON :=
  jsonParse (String.mk (json.data.drop offset))

/-- The chained access `json.payload.references.Topic`, which crashes with a
runtime type error if `payload` or `references` is `undefined` or `null`. -/
def topicChain (json : JSON) : Except MeedError (Option JSON) := do
  let payload ← accessOpt (some json) "payload"
  let refs ← accessOpt payload "references"
  accessOpt refs "Topic"

/-- One entry of `Object.entries(json.payload.references.Topic).map(...)`:
builds a TopicRec, crashing if the entry's value is `null` or its `image`
field is absent. -/
def formatTopicEntry (kv : String × JSON) : Except MeedError TopicRec := do
  let t := kv.2
  let slug ← accessOpt (some t) "slug"
  let name ← accessOpt (some t) "name"
  let image ← accessOpt (some t) "image"
  let imageId ← accessOpt image "id"
  let descr ← accessOpt (some t) "description"
  pure
    { slug := slug
      link := BASE ++ "/topic/" ++ jsonToStr slug
      name := name
      image := CDN ++ "/" ++ jsonToStr imageId
      description := descr }

/-- `formatTopics(json)`: validates the decoded topics JSON and normalizes
the topic-reference map into TopicRec records. -/
def formatTopics (json : JSON) : Except MeedError (List TopicRec) := do
  let success ← accessOpt (some json) "success"
  if truthy success then do
    let topicMap ← topicChain json
    match topicMap with
    | none => Except.error (MeedError.validationError "Invalid topics JSON")
    | some tm =>
      if truthy (some tm) then (jsEntries tm).mapM formatTopicEntry
      else Except.error (MeedError.validationError "Invalid topics JSON")
  else Except.error (MeedError.validationError "Invalid topics JSON")

/-- The options object passed to the `Meed` constructor. -/
structure MeedOptions where
  proxy : JSValue := JSValue.undefined
  fetch : JSValue := JSValue.undefined
deriving DecidableEq

/-- The ambient host environment: whether `typeof self === "object"` holds,
and the value of `self.fetch` when it does. -/
structure JSEnv where
  selfDefined : Bool
  selfFetch : JSValue
deriving DecidableEq

/-- A constructed `Meed` instance: its `proxy` and `fetch` fields. -/
structure Meed where
  proxy : JSValue
  fetch : JSValue
deriving DecidableEq

/-- The `Meed` constructor: coerces a falsy proxy option to `false`, rejects
a truthy non-string proxy, resolves the transport (ambient `self.fetch`
first, the injected `options.fetch` otherwise) and rejects a non-callable
result. -/
def Meed.make (options : MeedOptions) (env : JSEnv) : Except MeedError Meed :=
  let proxy := if options.proxy.truthy then options.proxy else JSValue.bool false
  if proxy ≠ JSValue.bool false ∧ proxy.isString = false then
    Except.error (MeedError.validationError "Proxy must be a string")
  else
    let fetch :=
      if env.selfDefined && env.selfFetch.isFunction then env.selfFetch else options.fetch
    if fetch.isFunction = false then
      Except.error (MeedError.validationError "Fetch is required and must be a function")
    else Except.ok ⟨proxy, fetch⟩

/-- URL construction shared by every method:
`(this.proxy) ? \x60${this.proxy}${BASE}...\x60 : \x60${BASE}...\x60`. -/
def Meed.mkUrl (m : Meed) (path : String) : String :=
  if m.proxy.truthy then m.proxy.toStr ++ BASE ++ path else BASE ++ path

/-- `getRSS`: fetch, validate, parse (externally), format. -/
def getRSS (url feedType contentType : String) (transport : String → Response)
    (parseRSSFn : String → Except MeedError RSSFeed) : Except MeedError (List FeedItem) := do
  let body ← check (transport url) contentType
  let feed ← parseRSSFn body
  pure (formatRSS feed feedType)

/-- `getTopics`: fetch, validate, decode, format. -/
def getTopics (url contentType : String) (transport : String → Response) :
    Except MeedError (List TopicRec) := do
  let body ← check (transport url) contentType
  let json ← parseTopics body
  formatTopics json

/-- `Meed#user(user)`.  Besides the call's result, returns the list of URLs
passed to the transport (empty when validation rejects the argument). -/
def Meed.user (m : Meed) (user : JSValue) (transport : String → Response)
    (parseRSSFn : String → Except MeedError RSSFeed) :
    Except MeedError (List FeedItem) × List String :=
  if jsNonEmptyString user = false then
    (Except.error (MeedError.validationError "User is required and must be a string"), [])
  else
    let url := m.mkUrl ("/feed/@" ++ user.toStr)
    (getRSS url "user" "text/xml" transport parseRSSFn, [url])

/-- `Meed#publication(publication, tag)`. -/
def Meed.publication (m : Meed) (publication tag : JSValue) (transport : String → Response)
    (parseRSSFn : String → Except MeedError RSSFeed) :
    Except MeedError (List FeedItem) × List String :=
  if jsNonEmptyString publication = false then
    (Except.error (MeedError.validationError "Publication is required and must be a string"), [])
  else if tag ≠ JSValue.undefined ∧ jsNonEmptyString tag = false then
    (Except.error (MeedError.validationError "Tag must be a string"), [])
  else
    let url0 := m.mkUrl ("/feed/" ++ publication.toStr)
    let url := if tag ≠ JSValue.undefined then url0 ++ "/tagged/" ++ tag.toStr else url0
    (getRSS url "publication" "text/xml" transport parseRSSFn, [url])

/-- `Meed#topic(topic)`. -/
def Meed.topic (m : Meed) (topic : JSValue) (transport : String → Response)
    (parseRSSFn : String → Except MeedError RSSFeed) :
    Except MeedError (List FeedItem) × List String :=
  if jsNonEmptyString topic = false then
    (Except.error (MeedError.validationError "Topic is required and must be a string"), [])
  else
    let url := m.mkUrl ("/feed/topic/" ++ topic.toStr)
    (getRSS url "topic" "text/xml" transport parseRSSFn, [url])

/-- `Meed#topics()`. -/
def Meed.topics (m : Meed) (transport : String → Response) :
    Except MeedError (List TopicRec) × List String :=
  let url := m.mkUrl "/topics?format=json"
  (getTopics url "application/json" transport, [url])

/-- `Meed#tag(tag)`. -/
def Meed.tag (m : Meed) (tag : JSValue) (transport : String → Response)
    (parseRSSFn : String → Except MeedError RSSFeed) :
    Except MeedError (List FeedItem) × List String :=
  if jsNonEmptyString tag = false then
    (Except.error (MeedError.validationError "Tag is required and must be a string"), [])
  else
    let url := m.mkUrl ("/feed/tag/" ++ tag.toStr)
    (getRSS url "tag" "text/xml" transport parseRSSFn, [url])

/-- Two strings with the same character data are equal. -/
theorem stringDataEq {a b : String} (h : a.data = b.data) : a = b := by
  cases a with
  | mk d1 =>
    cases b with
    | mk d2 => exact congrArg String.mk (by simpa using h)

/-- Character data of an append. -/
theorem dataAppend (a b : String) : (a ++ b).data = a.data ++ b.data := rfl

/-- Merge a concrete literal split inside character data. -/
theorem dataMerge (a b ab : String) (h : a ++ b = ab) (l : List Char) :
    a.data ++ (b.data ++ l) = ab.data ++ l := by
  rw [← List.append_assoc, ← dataAppend a b, h]

/-- `splitChar` always returns at least one piece. -/
theorem splitChar_ne_nil (sep : Char) (l : List Char) : splitChar sep l ≠ [] := by
  induction l with
  | nil => simp [splitChar]
  | cons c cs ih =>
    simp only [splitChar]
    cases hs : splitChar sep cs with
    | nil => exact absurd hs ih
    | cons h t =>
      by_cases hc : c == sep <;> simp [hc]

/-- The first piece of `splitChar` is the longest separator-free prefix. -/
theorem splitChar_headD (sep : Char) (l : List Char) :
    (splitChar sep l).headD [] = l.takeWhile (fun c => c != sep) := by
  induction l with
  | nil => simp [splitChar]
  | cons c cs ih =>
    simp only [splitChar]
    cases hs : splitChar sep cs with
    | nil => exact absurd hs (splitChar_ne_nil sep cs)
    | cons h t =>
      rw [hs] at ih
      simp only [List.headD_cons] at ih
      by_cases hc : c == sep
      · have : c = sep := by simpa using hc
        simp [hc, List.takeWhile, this]
      · have hcn : (c != sep) = true := by simpa using hc
        simp [hc, List.takeWhile, hcn, ih]

/-- The substring of `s` strictly before its first `'?'` (all of `s` when it
has none): the spec's description of link normalization. -/
def queryStripped (s : String) : String :=
  String.mk (s.data.takeWhile (fun c => c != '?'))

/-- Claim C1: the feed formatter selects the content field by feed kind:
for kind `user` or `publication` each formatted item's content is the item's
encoded-content field, and for kind `topic` or `tag` it is the item's
description field. -/
theorem formatRSS_content_selection (feed : RSSFeed) (t : String) (i : Nat) :
    (t = "user" ∨ t = "publication" →
      ((formatRSS feed t)[i]?).map FeedItem.content
        = (feed.items[i]?).map RSSItem.contentEncoded) ∧
    (t = "topic" ∨ t = "tag" →
      ((formatRSS feed t)[i]?).map FeedItem.content
        = (feed.items[i]?).map RSSItem.description) := by
  constructor
  · rintro (rfl | rfl) <;> cases h : feed.items[i]? <;>
      simp [formatRSS, List.getElem?_map, h]
  · rintro (rfl | rfl) <;> cases h : feed.items[i]? <;>
      simp [formatRSS, List.getElem?_map, h]

/-- Sample RSS item used to instantiate theorems about `formatRSS`. -/
def sampleItemA : RSSItem :=
  { isoDate := "2020-01-01T00:00:00.000Z"
    link := "https://medium.com/p/abc?source=rss-123"
    guid := some "https://medium.com/p/abc"
    title := some "A title"
    creator := some "Alice"
    contentEncoded := some "<p>encoded</p>"
    description := some "a description"
    categories := none }

/-- Sample parsed feed used to instantiate theorems about `formatRSS`. -/
def sampleFeedA : RSSFeed := ⟨[sampleItemA]⟩

/-- Witness for C1 at a concrete feed and kind. -/
theorem formatRSS_content_selection_witness :
    ((formatRSS sampleFeedA "user")[0]?).map FeedItem.content
      = (sampleFeedA.items[0]?).map RSSItem.contentEncoded :=
  (formatRSS_content_selection sampleFeedA "user" 0).1 (Or.inl rfl)

/-- Claim C10: the feed formatter yields exactly one output item per input
item, in the same order (lengths match and the `i`-th output is built from
the `i`-th input), and absent categories become the empty sequence. -/
theorem formatRSS_item_correspondence (feed : RSSFeed) (t : String) (i : Nat) :
    (formatRSS feed t).length = feed.items.length ∧
    ((formatRSS feed t)[i]?).map FeedItem.guid = (feed.items[i]?).map RSSItem.guid ∧
    ((formatRSS feed t)[i]?).map FeedItem.title = (feed.items[i]?).map RSSItem.title ∧
    ((formatRSS feed t)[i]?).map FeedItem.author = (feed.items[i]?).map RSSItem.creator ∧
    ((formatRSS feed t)[i]?).map FeedItem.categories
      = (feed.items[i]?).map (fun item => item.categories.getD []) := by
  refine ⟨by simp [formatRSS], ?_, ?_, ?_, ?_⟩ <;>
    cases h : feed.items[i]? <;> simp [formatRSS, List.getElem?_map, h]

/-- Claim C6: each formatted item's link is the substring of the original
link strictly before its first `'?'`; a link without `'?'` is unchanged. -/
theorem formatRSS_link_query_stripped (feed : RSSFeed) (t : String) (i : Nat) (item : RSSItem)
    (h : feed.items[i]? = some item) :
    ∃ f, (formatRSS feed t)[i]? = some f ∧
      f.link = queryStripped item.link ∧
      ('?' ∉ item.link.data → f.link = item.link) := by
  have hlink : (jsSplit item.link '?').headD "" = queryStripped item.link := by
    unfold jsSplit queryStripped
    cases hs : splitChar '?' item.link.data with
    | nil => exact absurd hs (splitChar_ne_nil '?' item.link.data)
    | cons hd tl =>
      have hh := splitChar_headD '?' item.link.data
      rw [hs] at hh
      simp only [List.headD_cons] at hh
      simp [hh]
  refine
    ⟨{ date := ⟨item.isoDate⟩
       link := (jsSplit item.link '?').headD ""
       guid := item.guid
       title := item.title
       author := item.creator
       content :=
         if ["user", "publication"].contains t then item.contentEncoded else item.description
       categories := item.categories.getD [] }, ?_, ?_, ?_⟩
  · simp [formatRSS, List.getElem?_map, h]
  · exact hlink
  · intro hq
    rw [hlink]
    unfold queryStripped
    rw [List.takeWhile_eq_self_iff.mpr]
    · intro c hc
      simp only [bne_iff_ne, ne_eq]
      intro heq
      exact hq (heq ▸ hc)

/-- Witness for C6 at a concrete feed: the tracking query is stripped. -/
theorem formatRSS_link_query_stripped_witness :
    ((formatRSS sampleFeedA "user")[0]?).map FeedItem.link
      = some (queryStripped "https://medium.com/p/abc?source=rss-123") := by
  obtain ⟨f, hf, hl, -⟩ :=
    formatRSS_link_query_stripped sampleFeedA "user" 0 sampleItemA rfl
  rw [hf]
  simpa using hl

/-- `listHasInfix` decides contiguous-sublist containment. -/
theorem listHasInfix_iff (hay needle : List Char) :
    listHasInfix hay needle = true ↔ needle <:+: hay := by
  induction hay with
  | nil => simp [listHasInfix, List.isEmpty_iff]
  | cons c t ih =>
    simp only [listHasInfix, Bool.or_eq_true, List.isPrefixOf_iff_prefix, ih,
      List.infix_cons_iff]

/-- A string contains its own right part. -/
theorem jsIncludes_appendRight (a b : String) : jsIncludes (a ++ b) b = true := by
  unfold jsIncludes
  rw [listHasInfix_iff, dataAppend]
  exact ⟨a.data, [], by simp⟩

/-- A string contains its own middle part. -/
theorem jsIncludes_middle (a b c : String) : jsIncludes (a ++ b ++ c) b = true := by
  unfold jsIncludes
  rw [listHasInfix_iff, dataAppend, dataAppend]
  exact ⟨a.data, c.data, by simp⟩

/-- Case-insensitive substring containment, the spec's reading of the
content-type comparison. -/
def ciContains (hay needle : String) : Bool := jsIncludes (jsToLower hay) (jsToLower needle)

/-- Claim C3: the response validator fails with an upstream error carrying
the status code whenever the success indicator is false, regardless of the
body; fails with an upstream error whose message contains both the expected
and the actual type whenever the content type does not case-insensitively
contain the expected substring (which the program supplies in lower case);
and otherwise returns the body text. -/
theorem check_behavior (res : Response) (t : String) (hl : jsToLower t = t) :
    (res.ok = false →
      check res t
        = Except.error
            (MeedError.upstreamError ("Response code not OK: " ++ toString res.status))) ∧
    (res.ok = true → ciContains res.contentType t = false →
      ∃ msg, check res t = Except.error (MeedError.upstreamError msg) ∧
        jsIncludes msg t = true ∧ jsIncludes msg res.contentType = true) ∧
    (res.ok = true → ciContains res.contentType t = true → check res t = Except.ok res.body) := by
  have hci : ciContains res.contentType t = jsIncludes (jsToLower res.contentType) t := by
    rw [ciContains, hl]
  refine ⟨?_, ?_, ?_⟩
  · intro hok
    simp [check, hok]
  · intro hok hc
    rw [hci] at hc
    refine ⟨"Response type not " ++ t ++ ": " ++ res.contentType, ?_, ?_, ?_⟩
    · simp [check, hok, hc]
    · rw [String.append_assoc]
      exact jsIncludes_middle "Response type not " t (": " ++ res.contentType)
    · exact jsIncludes_appendRight ("Response type not " ++ t ++ ": ") res.contentType
  · intro hok hc
    rw [hci] at hc
    simp [check, hok, hc]

/-- Witness for C3: a 404 response is rejected with the status in the
message. -/
theorem check_behavior_witness :
    check ⟨false, 404, "text/html", "ignored body"⟩ "text/xml"
      = Except.error (MeedError.upstreamError ("Response code not OK: " ++ toString (404 : Int))) :=
  (check_behavior ⟨false, 404, "text/html", "ignored body"⟩ "text/xml" (by decide)).1 rfl

/-- Counterexample for C4: with a truthy success flag but no `payload`
object, the topics formatter fails with a runtime type error from the
chained property access, not with the `"Invalid topics JSON"` validation
error the claim requires for an absent topic-reference map. -/
theorem formatTopics_missing_payload_cx :
    formatTopics (JSON.obj [("success", JSON.bool true)])
      = Except.error
          (MeedError.typeError "Cannot read properties of undefined (reading references)") ∧
    formatTopics (JSON.obj [("success", JSON.bool true)])
      ≠ Except.error (MeedError.validationError "Invalid topics JSON") := by
  have hev : formatTopics (JSON.obj [("success", JSON.bool true)])
      = Except.error
          (MeedError.typeError "Cannot read properties of undefined (reading references)") := rfl
  refine ⟨hev, ?_⟩
  intro hcontra
  rw [hev] at hcontra
  simp at hcontra

/-- Claim C4 as amended: for a decoded topics value other than JSON `null`,
a falsy success flag yields the `"Invalid topics JSON"` validation error; a
successfully accessed but absent-or-falsy `payload.references.Topic` also
yields that validation error; but when the chained access itself fails
(absent or null `payload`/`references`), that runtime type error is
propagated instead. -/
theorem formatTopics_error_causes (json : JSON) (hnull : json ≠ JSON.null) :
    (truthy (jsGet json "success") = false →
      formatTopics json = Except.error (MeedError.validationError "Invalid topics JSON")) ∧
    (truthy (jsGet json "success") = true →
      (∀ tm, topicChain json = Except.ok tm → truthy tm = false →
        formatTopics json = Except.error (MeedError.validationError "Invalid topics JSON")) ∧
      (∀ e, topicChain json = Except.error e → formatTopics json = Except.error e)) := by
  have hacc : accessOpt (some json) "success" = Except.ok (jsGet json "success") := by
    cases json with
    | null => exact absurd rfl hnull
    | bool b => rfl
    | num n => rfl
    | str s => rfl
    | arr xs => rfl
    | obj fs => rfl
  refine ⟨?_, ?_⟩
  · intro hf
    simp [formatTopics, hacc, hf, Bind.bind, Except.bind]
  · intro htr
    refine ⟨?_, ?_⟩
    · intro tm hch hf
      cases tm with
      | none => simp [formatTopics, hacc, htr, hch, Bind.bind, Except.bind]
      | some v => simp [formatTopics, hacc, htr, hch, hf, Bind.bind, Except.bind]
    · intro e hch
      simp [formatTopics, hacc, htr, hch, Bind.bind, Except.bind]

/-- Witness for C4 (amended) at a concrete falsy success flag. -/
theorem formatTopics_error_causes_witness :
    formatTopics (JSON.obj [("success", JSON.bool false)])
      = Except.error (MeedError.validationError "Invalid topics JSON") :=
  (formatTopics_error_causes (JSON.obj [("success", JSON.bool false)])
    (fun h => JSON.noConfusion h)).1 rfl

/-- The raw topics body of the spec's Scenario 3, guard prefix included. -/
def scenarioBody : String :=
  "])\x7dwhile(1);</x>\x7b\"success\":true,\"payload\":\x7b\"references\":\x7b\"Topic\":\x7b\"t1\":\x7b\"slug\":\"ai\",\"name\":\"AI\",\"image\":\x7b\"id\":\"img1\"\x7d,\"description\":\"d\"\x7d\x7d\x7d\x7d\x7d"

/-- A transport that answers every request with the Scenario 3 body. -/
def scenarioTransport : String → Response := fun _ =>
  ⟨true, 200, "application/json", scenarioBody⟩

set_option maxRecDepth 100000

/-- Claim C5: the topics payload decoder removes exactly the first `offset`
characters (16 by default) and parses the remainder as JSON, and a `topics()`
call whose validated body is the Scenario 3 payload returns the single
expected normalized topic. -/
theorem parseTopics_scenario (s : String) (off : Nat) :
    parseTopics s off = jsonParse (String.mk (s.data.drop off)) ∧
    parseTopics s = jsonParse (String.mk (s.data.drop 16)) ∧
    (Meed.topics ⟨JSValue.bool false, JSValue.fn 0⟩ scenarioTransport).1
      = Except.ok
          [{ slug := some (JSON.str "ai")
             link := "https://medium.com/topic/ai"
             name := some (JSON.str "AI")
             image := "https://cdn-images-1.medium.com/img1"
             description := some (JSON.str "d") }] :=
  ⟨rfl, rfl, rfl⟩

/-- The text a constructed client's proxy contributes to URLs. -/
def proxyOf (m : Meed) : String :=
  match m.proxy with
  | JSValue.str p => p
  | _ => ""

/-- Merging a literal split across a string append. -/
theorem append_merge (x a b y ab : String) (hab : a ++ b = ab) :
    (x ++ a) ++ (b ++ y) = (x ++ ab) ++ y := by
  rw [String.append_assoc x a, ← String.append_assoc a b, hab, ← String.append_assoc x ab]

/-- Under the constructor's proxy invariant, every built URL is the proxy
text followed by the Medium base URL and the path. -/
theorem mkUrl_split (m : Meed)
    (hp : m.proxy = JSValue.bool false ∨ ∃ p, p ≠ "" ∧ m.proxy = JSValue.str p)
    (path : String) : m.mkUrl path = proxyOf m ++ BASE ++ path := by
  rcases hp with h | ⟨p, hpne, h⟩
  · simp [Meed.mkUrl, proxyOf, h, JSValue.truthy]
  · simp [Meed.mkUrl, proxyOf, h, JSValue.truthy, JSValue.toStr, hpne]

/-- URL form for a path that is a literal followed by a name. -/
theorem urlForm (m : Meed)
    (hp : m.proxy = JSValue.bool false ∨ ∃ p, p ≠ "" ∧ m.proxy = JSValue.str p)
    (lit big : String) (hlit : BASE ++ lit = big) (s : String) :
    m.mkUrl (lit ++ s) = proxyOf m ++ big ++ s := by
  rw [mkUrl_split m hp]
  exact append_merge (proxyOf m) BASE lit s big hlit

/-- URL form for a fully literal path. -/
theorem urlFormLit (m : Meed)
    (hp : m.proxy = JSValue.bool false ∨ ∃ p, p ≠ "" ∧ m.proxy = JSValue.str p)
    (lit big : String) (hlit : BASE ++ lit = big) :
    m.mkUrl lit = proxyOf m ++ big := by
  rw [mkUrl_split m hp, String.append_assoc, hlit]

/-- Claim C2: with non-empty string arguments, every public operation passes
the transport exactly the documented URL, with the configured proxy text
prepended verbatim (and nothing prepended when no proxy is configured). -/
theorem meed_request_urls (m : Meed)
    (hp : m.proxy = JSValue.bool false ∨ ∃ p, p ≠ "" ∧ m.proxy = JSValue.str p)
    (name tg : String) (hn : 0 < name.length) (ht : 0 < tg.length)
    (transport : String → Response) (parseRSSFn : String → Except MeedError RSSFeed) :
    (m.user (JSValue.str name) transport parseRSSFn).2
      = [proxyOf m ++ "https://medium.com/feed/@" ++ name] ∧
    (m.publication (JSValue.str name) JSValue.undefined transport parseRSSFn).2
      = [proxyOf m ++ "https://medium.com/feed/" ++ name] ∧
    (m.publication (JSValue.str name) (JSValue.str tg) transport parseRSSFn).2
      = [proxyOf m ++ "https://medium.com/feed/" ++ name ++ "/tagged/" ++ tg] ∧
    (m.topic (JSValue.str name) transport parseRSSFn).2
      = [proxyOf m ++ "https://medium.com/feed/topic/" ++ name] ∧
    (m.tag (JSValue.str name) transport parseRSSFn).2
      = [proxyOf m ++ "https://medium.com/feed/tag/" ++ name] ∧
    (m.topics transport).2 = [proxyOf m ++ "https://medium.com/topics?format=json"] := by
  have hname : jsNonEmptyString (JSValue.str name) = true := by
    simp [jsNonEmptyString]
    exact hn
  have htag : jsNonEmptyString (JSValue.str tg) = true := by
    simp [jsNonEmptyString]
    exact ht
  refine ⟨?_, ?_, ?_, ?_, ?_, ?_⟩
  · simp [Meed.user, hname, JSValue.toStr,
      urlForm m hp "/feed/@" "https://medium.com/feed/@" rfl name]
  · simp [Meed.publication, hname, JSValue.toStr,
      urlForm m hp "/feed/" "https://medium.com/feed/" rfl name]
  · simp [Meed.publication, hname, htag, JSValue.toStr,
      urlForm m hp "/feed/" "https://medium.com/feed/" rfl name]
  · simp [Meed.topic, hname, JSValue.toStr,
      urlForm m hp "/feed/topic/" "https://medium.com/feed/topic/" rfl name]
  · simp [Meed.tag, hname, JSValue.toStr,
      urlForm m hp "/feed/tag/" "https://medium.com/feed/tag/" rfl name]
  · simp [Meed.topics,
      urlFormLit m hp "/topics?format=json" "https://medium.com/topics?format=json" rfl]

/-- Witness for C2: Scenario 2's publication call with a tag, no proxy. -/
theorem meed_request_urls_witness :
    (Meed.publication ⟨JSValue.bool false, JSValue.fn 0⟩ (JSValue.str "foo") (JSValue.str "bar")
        (fun _ => ⟨true, 200, "text/xml", ""⟩) (fun _ => Except.ok ⟨[]⟩)).2
      = ["https://medium.com/feed/foo/tagged/bar"] := by
  exact ((meed_request_urls ⟨JSValue.bool false, JSValue.fn 0⟩ (Or.inl rfl) "foo" "bar"
    (by decide) (by decide) (fun _ => ⟨true, 200, "text/xml", ""⟩)
    (fun _ => Except.ok ⟨[]⟩)).2.2).1

/-- Claim C7: an argument that is not a non-empty string makes `user`,
`publication`, `topic` and `tag` fail with a validation error without the
transport ever being invoked; a provided non-string (or empty) tag does the
same for `publication`. -/
theorem meed_arg_validation (m : Meed) (v w : JSValue) (transport : String → Response)
    (parseRSSFn : String → Except MeedError RSSFeed) (hv : jsNonEmptyString v = false) :
    m.user v transport parseRSSFn
      = (Except.error (MeedError.validationError "User is required and must be a string"), []) ∧
    m.topic v transport parseRSSFn
      = (Except.error (MeedError.validationError "Topic is required and must be a string"), []) ∧
    m.tag v transport parseRSSFn
      = (Except.error (MeedError.validationError "Tag is required and must be a string"), []) ∧
    m.publication v w transport parseRSSFn
      = (Except.error (MeedError.validationError "Publication is required and must be a string"),
         []) ∧
    (∀ name : String, 0 < name.length → v ≠ JSValue.undefined →
      m.publication (JSValue.str name) v transport parseRSSFn
        = (Except.error (MeedError.validationError "Tag must be a string"), [])) := by
  refine ⟨by simp [Meed.user, hv], by simp [Meed.topic, hv], by simp [Meed.tag, hv],
    by simp [Meed.publication, hv], ?_⟩
  intro name hnm hvu
  have hname : jsNonEmptyString (JSValue.str name) = true := by
    simp [jsNonEmptyString]
    exact hnm
  simp [Meed.publication, hname, hvu, hv]

/-- Witness for C7: a numeric argument is rejected and nothing is fetched. -/
theorem meed_arg_validation_witness :
    Meed.user ⟨JSValue.bool false, JSValue.fn 0⟩ (JSValue.num 5)
        (fun _ => ⟨true, 200, "text/xml", ""⟩) (fun _ => Except.ok ⟨[]⟩)
      = (Except.error (MeedError.validationError "User is required and must be a string"), []) :=
  (meed_arg_validation ⟨JSValue.bool false, JSValue.fn 0⟩ (JSValue.num 5) JSValue.undefined
    (fun _ => ⟨true, 200, "text/xml", ""⟩) (fun _ => Except.ok ⟨[]⟩) rfl).1

/-- Counterexample for C8: the proxy option `0` is neither `false` nor a
string, yet construction succeeds (a falsy proxy is coerced to `false`
before the type check). -/
theorem meed_make_proxy_zero_cx :
    Meed.make ⟨JSValue.num 0, JSValue.fn 0⟩ ⟨false, JSValue.undefined⟩
      = Except.ok ⟨JSValue.bool false, JSValue.fn 0⟩ ∧
    JSValue.num 0 ≠ JSValue.bool false ∧ (JSValue.num 0).isString = false :=
  ⟨rfl, by decide, rfl⟩


/-- When the coerced proxy passes the constructor's type check, construction
reduces to the transport resolution step. -/
theorem make_resolved (opts : MeedOptions) (env : JSEnv)
    (hnc : ¬(opts.proxy.truthy = true ∧ opts.proxy.isString = false)) :
    Meed.make opts env
      = if (if env.selfDefined && env.selfFetch.isFunction then env.selfFetch
            else opts.fetch).isFunction = false then
          Except.error (MeedError.validationError "Fetch is required and must be a function")
        else
          Except.ok
            ⟨if opts.proxy.truthy then opts.proxy else JSValue.bool false,
              if env.selfDefined && env.selfFetch.isFunction then env.selfFetch
              else opts.fetch⟩ := by
  have hcond : ¬((if opts.proxy.truthy then opts.proxy else JSValue.bool false)
      ≠ JSValue.bool false ∧
      (if opts.proxy.truthy then opts.proxy else JSValue.bool false).isString = false) := by
    by_cases htr : opts.proxy.truthy = true
    · have hst : opts.proxy.isString = true := by
        cases hb : opts.proxy.isString with
        | false => exact absurd ⟨htr, hb⟩ hnc
        | true => rfl
      simp [htr, hst]
    · simp only [Bool.not_eq_true] at htr
      simp [htr]
  simp only [Meed.make]
  rw [if_neg hcond]

/-- Claim C8 as amended: construction fails with the proxy validation error
exactly when the provided proxy option is truthy and not a string; falsy
proxy values (such as `false`, `0`, the empty string, `null` or `undefined`)
are coerced to `false` and accepted. -/
theorem meed_make_proxy_validation (opts : MeedOptions) (env : JSEnv) :
    Meed.make opts env = Except.error (MeedError.validationError "Proxy must be a string")
      ↔ opts.proxy.truthy = true ∧ opts.proxy.isString = false := by
  constructor
  · intro h
    by_contra hnc
    rw [make_resolved opts env hnc] at h
    split at h
    · split at h
      · injection h with h2
        injection h2 with h3
        exact absurd h3 (by decide)
      · exact Except.noConfusion h
    · split at h
      · injection h with h2
        injection h2 with h3
        exact absurd h3 (by decide)
      · exact Except.noConfusion h
  · rintro ⟨htr, hst⟩
    have hne : opts.proxy ≠ JSValue.bool false := by
      intro hcontra
      rw [hcontra] at htr
      simp [JSValue.truthy] at htr
    simp [Meed.make, htr, hst, hne]

/-- Counterexample for C9: with both an ambient `self.fetch` and an injected
callable transport available, construction resolves the ambient one, not the
injected one — the claim's precedence is reversed. -/
theorem meed_make_ambient_wins_cx :
    Meed.make ⟨JSValue.undefined, JSValue.fn 2⟩ ⟨true, JSValue.fn 1⟩
      = Except.ok ⟨JSValue.bool false, JSValue.fn 1⟩ ∧
    (JSValue.fn 2).isFunction = true ∧ JSValue.fn 1 ≠ JSValue.fn 2 :=
  ⟨rfl, rfl, by decide⟩

/-- Claim C9 as amended: construction resolves the transport from the
ambient host-provided fetch-like global when the environment provides a
callable one, falling back to the injected options transport otherwise; if
neither resolves to a callable function, construction fails with a
validation error. -/
theorem meed_make_transport_resolution (opts : MeedOptions) (env : JSEnv)
    (hp : ¬(opts.proxy.truthy = true ∧ opts.proxy.isString = false)) :
    (env.selfDefined = true → env.selfFetch.isFunction = true →
      Meed.make opts env
        = Except.ok
            ⟨if opts.proxy.truthy then opts.proxy else JSValue.bool false, env.selfFetch⟩) ∧
    ((env.selfDefined && env.selfFetch.isFunction) = false →
      (opts.fetch.isFunction = true →
        Meed.make opts env
          = Except.ok
              ⟨if opts.proxy.truthy then opts.proxy else JSValue.bool false, opts.fetch⟩) ∧
      (opts.fetch.isFunction = false →
        Meed.make opts env
          = Except.error
              (MeedError.validationError "Fetch is required and must be a function"))) := by
  rw [make_resolved opts env hp]
  refine ⟨?_, ?_⟩
  · intro hsd hsf
    simp [hsd, hsf]
  · intro hno
    refine ⟨?_, ?_⟩
    · intro hf
      simp [hno, hf]
    · intro hf
      simp [hno, hf]

/-- Witness for C9 (amended): Scenario 6 — no injected transport and no
ambient fetch-like global fails construction. -/
theorem meed_make_transport_resolution_witness :
    Meed.make ⟨JSValue.undefined, JSValue.undefined⟩ ⟨false, JSValue.undefined⟩
      = Except.error (MeedError.validationError "Fetch is required and must be a function") :=
  ((meed_make_transport_resolution ⟨JSValue.undefined, JSValue.undefined⟩
    ⟨false, JSValue.undefined⟩ (by decide)).2 rfl).2 rfl
